import Mathlib

/-!
Verification of the pedestrian/crowd evacuation simulation
(`js/Vector.js`, `js/Agent.js`, `js/Environment.js`, `js/Simulation.js`).

The JavaScript code computes with IEEE doubles; the embedding models the
arithmetic over the exact reals `ℝ`, which is the intended denotation of the
source formulas.  Mutating vector methods (`add`, `sub`, `mult`, `div`,
`normalize`, `limit`) all return the updated object; they are modelled as pure
functions returning the new value, and the static helpers `Vector.add` /
`Vector.sub` coincide with the pure versions.  Object identity of agents
(JavaScript reference comparison `!==`, and the references stored in the
spatial-grid buckets) is modelled by the index of the agent in the
frame-start agent array.
-/

noncomputable section

namespace PedSim

open scoped Classical

/-- 2D vector from `js/Vector.js`: two real components. -/
@[ext]
structure Vector where
  x : ℝ
  y : ℝ
deriving DecidableEq

namespace Vector

/-- Method `add` of `Vector.js` (also the static `Vector.add`). -/
def add (v w : Vector) : Vector := ⟨v.x + w.x, v.y + w.y⟩

/-- Method `sub` of `Vector.js` (also the static `Vector.sub`). -/
def sub (v w : Vector) : Vector := ⟨v.x - w.x, v.y - w.y⟩

/-- Method `mult` of `Vector.js`: scale by a scalar. -/
def mult (v : Vector) (s : ℝ) : Vector := ⟨v.x * s, v.y * s⟩

/-- Method `div` of `Vector.js`: divide by a scalar, a silent no-op when the
scalar is exactly zero (`if (s !== 0)`). -/
def div (v : Vector) (s : ℝ) : Vector :=
  if s ≠ 0 then ⟨v.x / s, v.y / s⟩ else v

/-- Method `mag` of `Vector.js`: `Math.sqrt(x*x + y*y)`. -/
def mag (v : Vector) : ℝ := Real.sqrt (v.x * v.x + v.y * v.y)

/-- Method `normalize` of `Vector.js`: divide by the magnitude unless the
magnitude is exactly zero. -/
def normalize (v : Vector) : Vector :=
  if v.mag ≠ 0 then v.div v.mag else v

/-- Method `limit` of `Vector.js`: clamp the magnitude to `max`. -/
def limit (v : Vector) (max : ℝ) : Vector :=
  if v.mag > max then (v.normalize).mult max else v

/-- Method `dist` of `Vector.js`: Euclidean distance. -/
def dist (v w : Vector) : ℝ :=
  Real.sqrt ((v.x - w.x) * (v.x - w.x) + (v.y - w.y) * (v.y - w.y))

theorem mag_nonneg (v : Vector) : 0 ≤ v.mag := Real.sqrt_nonneg _

theorem mag_eq_zero_iff (v : Vector) : v.mag = 0 ↔ v = ⟨0, 0⟩ := by
  unfold mag
  constructor
  · intro h
    have hx : v.x * v.x + v.y * v.y = 0 := by
      have h0 : 0 ≤ v.x * v.x + v.y * v.y := by nlinarith [sq_nonneg v.x, sq_nonneg v.y]
      have := Real.sqrt_eq_zero h0 |>.mp h
      exact this
    have hx1 : v.x = 0 := by nlinarith [sq_nonneg v.x, sq_nonneg v.y]
    have hy1 : v.y = 0 := by nlinarith [sq_nonneg v.x, sq_nonneg v.y]
    cases v
    simp_all
  · intro h
    subst h
    simp

theorem mag_mult (v : Vector) (s : ℝ) : (v.mult s).mag = |s| * v.mag := by
  unfold mag mult
  have : v.x * s * (v.x * s) + v.y * s * (v.y * s) = s ^ 2 * (v.x * v.x + v.y * v.y) := by
    ring
  rw [this, Real.sqrt_mul (sq_nonneg s), Real.sqrt_sq_eq_abs]

theorem div_eq_mult (v : Vector) {s : ℝ} (hs : s ≠ 0) : v.div s = v.mult s⁻¹ := by
  unfold div mult
  rw [if_pos hs]
  simp [div_eq_mul_inv]

theorem mag_normalize {v : Vector} (h : v.mag ≠ 0) : (v.normalize).mag = 1 := by
  unfold normalize
  rw [if_pos h, div_eq_mult v h, mag_mult]
  have hpos : 0 < v.mag := lt_of_le_of_ne (mag_nonneg v) (Ne.symm h)
  rw [abs_inv, abs_of_pos hpos]
  field_simp

theorem mag_limit_le (v : Vector) {max : ℝ} (hmax : 0 ≤ max) :
    (v.limit max).mag ≤ max := by
  unfold limit
  by_cases h : v.mag > max
  · rw [if_pos h]
    have hne : v.mag ≠ 0 := by
      intro h0
      rw [h0] at h
      exact absurd (lt_of_le_of_lt hmax h) (lt_irrefl 0)
    rw [mag_mult, mag_normalize hne, mul_one, abs_of_nonneg hmax]
  · rw [if_neg h]
    exact le_of_not_lt h

theorem dist_add_left (p v : Vector) : (p.add v).dist p = v.mag := by
  unfold dist add mag
  congr 1
  ring

end Vector

/-- Axis-aligned rectangle `{x, y, w, h}` as used for walls, restricted zones
and the exit in `js/Environment.js`. -/
structure Rect where
  x : ℝ
  y : ℝ
  w : ℝ
  h : ℝ

/-- Method `rectIntersect` of `Environment.js`: the separating-axis test
`!(r1.x + r1.w < r2.x || r1.x > r2.x + r2.w || r1.y + r1.h < r2.y || r1.y > r2.y + r2.h)`. -/
def rectIntersect (r1 r2 : Rect) : Prop :=
  ¬(r1.x + r1.w < r2.x ∨ r1.x > r2.x + r2.w ∨ r1.y + r1.h < r2.y ∨ r1.y > r2.y + r2.h)

/-- The environment of `Environment.js`: bounds, walls, one exit rectangle and
restricted zones. -/
structure Environment where
  width : ℝ
  height : ℝ
  walls : List Rect
  exitRect : Rect
  restrictedZones : List Rect

/-- Constructor of `Environment.js` together with `setupEnvironment`:
the exit `{x: width-50, y: height/2-25, w: 50, h: 50}`, the five fixed walls
and the single restricted zone of the reference layout. -/
def mkEnvironment (w h : ℝ) : Environment :=
  { width := w
    height := h
    exitRect := ⟨w - 50, h / 2 - 25, 50, 50⟩
    walls := [⟨0, 0, w, 20⟩, ⟨0, h - 20, w, 20⟩, ⟨0, 0, 20, h⟩,
              ⟨300, 100, 20, 200⟩, ⟨300, 400, 20, 200⟩]
    restrictedZones := [⟨100, 100, 100, 100⟩] }

/-- The agent-sized square centered on `pos` used by `isPositionValid`
(`agentRadius = 5`). -/
def agentRectAt (pos : Vector) : Rect := ⟨pos.x - 5, pos.y - 5, 10, 10⟩

/-- Method `isPositionValid` of `Environment.js`: the agent square must not
intersect any wall rectangle nor any restricted-zone rectangle, and the point
must lie inside `[0,width] × [0,height]`.  The three early-return loops of the
source denote this conjunction. -/
def Environment.isPositionValid (env : Environment) (pos : Vector) : Prop :=
  (∀ r ∈ env.walls, ¬ rectIntersect (agentRectAt pos) r) ∧
  (∀ r ∈ env.restrictedZones, ¬ rectIntersect (agentRectAt pos) r) ∧
  ¬(pos.x < 0 ∨ pos.x > env.width ∨ pos.y < 0 ∨ pos.y > env.height)

/-- Modelled from the spec: the physical-blocking test as the specification
describes it, checking only the wall rectangles and the boundary box (the
restricted zones deliberately absent).  Used to compare the spec's description
of `isPositionValid` with the source definition. -/
def Environment.isPositionValidWallsOnly (env : Environment) (pos : Vector) : Prop :=
  (∀ r ∈ env.walls, ¬ rectIntersect (agentRectAt pos) r) ∧
  ¬(pos.x < 0 ∨ pos.x > env.width ∨ pos.y < 0 ∨ pos.y > env.height)

/-- Center of the exit rectangle, as computed in `Environment.isAtExit` and in
`Simulation.update`. -/
def exitCenter (env : Environment) : Vector :=
  ⟨env.exitRect.x + env.exitRect.w / 2, env.exitRect.y + env.exitRect.h / 2⟩

/-- Method `isAtExit` of `Environment.js` at its default threshold `10`, the
only way it is invoked by the simulation. -/
def Environment.isAtExit (env : Environment) (pos : Vector) : Prop :=
  pos.dist (exitCenter env) < 10

/-- A pedestrian agent from `js/Agent.js`. -/
structure Agent where
  position : Vector
  velocity : Vector
  maxSpeed : ℝ
  perceptionRadius : ℝ
  desiredSeparation : ℝ
  radius : ℝ
  wallPerceptionRadius : ℝ

/-- Constructor of `Agent.js`: zero initial velocity, visual radius `5`,
wall-perception radius `30`. -/
def mkAgent (x y maxSpeed perceptionRadius desiredSeparation : ℝ) : Agent :=
  { position := ⟨x, y⟩
    velocity := ⟨0, 0⟩
    maxSpeed := maxSpeed
    perceptionRadius := perceptionRadius
    desiredSeparation := desiredSeparation
    radius := 5
    wallPerceptionRadius := 30 }

namespace Agent

/-- Method `applyForce` of `Agent.js`: add the force into the velocity. -/
def applyForce (a : Agent) (force : Vector) : Agent :=
  { a with velocity := a.velocity.add force }

/-- Method `update` of `Agent.js`: clamp the velocity to `maxSpeed`, take one
integration step, and on an invalid candidate position dampen the velocity by
`0.8` and recompute once, committing the candidate either way. -/
def update (env : Environment) (a : Agent) : Agent :=
  let v := a.velocity.limit a.maxSpeed
  let next := a.position.add v
  if env.isPositionValid next then
    { a with velocity := v, position := next }
  else
    let v2 := v.mult 0.8
    { a with velocity := v2, position := a.position.add v2 }

/-- Method `separation` of `Agent.js`. -/
def separation (a : Agent) (neighbors : List Agent) : Vector :=
  let p := neighbors.foldl
    (fun (p : Vector × ℕ) nb =>
      let d := a.position.dist nb.position
      if 0 < d ∧ d < a.desiredSeparation then
        (p.1.add (((a.position.sub nb.position).normalize).div d), p.2 + 1)
      else p)
    (⟨0, 0⟩, 0)
  let steer := if 0 < p.2 then p.1.div (p.2 : ℝ) else p.1
  if steer.mag > 0 then ((steer.normalize).mult a.maxSpeed).sub a.velocity
  else steer

/-- Method `alignment` of `Agent.js`: average all neighbor velocities,
normalize, scale to `maxSpeed`, subtract the current velocity; zero vector
when there is no neighbor. -/
def alignment (a : Agent) (neighbors : List Agent) : Vector :=
  let p := neighbors.foldl
    (fun (p : Vector × ℕ) nb => (p.1.add nb.velocity, p.2 + 1)) (⟨0, 0⟩, 0)
  if 0 < p.2 then
    (((p.1.div (p.2 : ℝ)).normalize).mult a.maxSpeed).sub a.velocity
  else ⟨0, 0⟩

/-- Method `cohesion` of `Agent.js`. -/
def cohesion (a : Agent) (neighbors : List Agent) : Vector :=
  let p := neighbors.foldl
    (fun (p : Vector × ℕ) nb => (p.1.add nb.position, p.2 + 1)) (⟨0, 0⟩, 0)
  if 0 < p.2 then
    ((((p.1.div (p.2 : ℝ)).sub a.position).normalize).mult a.maxSpeed).sub a.velocity
  else ⟨0, 0⟩

/-- Method `seekGoal` of `Agent.js`: `Vector.sub(goal, position).normalize().mult(maxSpeed)`
minus the current velocity. -/
def seekGoal (a : Agent) (goal : Vector) : Vector :=
  (((goal.sub a.position).normalize).mult a.maxSpeed).sub a.velocity

/-- Closest point of a rectangle to the agent's position, via the per-axis
clamp used in `wallAvoidance`. -/
def closestPoint (a : Agent) (r : Rect) : Vector :=
  ⟨max r.x (min a.position.x (r.x + r.w)), max r.y (min a.position.y (r.y + r.h))⟩

/-- One iteration of the `wallAvoidance` loops: accumulate the
`1/d`-weighted unit vector away from the rectangle's closest point when that
point lies within `wallPerceptionRadius`. -/
def wallStep (a : Agent) (p : Vector × ℕ) (r : Rect) : Vector × ℕ :=
  let c := closestPoint a r
  let d := a.position.dist c
  if 0 < d ∧ d < a.wallPerceptionRadius then
    (p.1.add (((a.position.sub c).normalize).div d), p.2 + 1)
  else p

/-- Method `wallAvoidance` of `Agent.js`: accumulate `1/d`-weighted unit
vectors away from the closest point of every wall and every restricted zone
within `wallPerceptionRadius`; the two source loops over `env.walls` and
`env.restrictedZones` denote one fold over their concatenation. -/
def wallAvoidance (a : Agent) (env : Environment) : Vector :=
  let p := (env.walls ++ env.restrictedZones).foldl (wallStep a) (⟨0, 0⟩, 0)
  let steer := if 0 < p.2 then p.1.div (p.2 : ℝ) else p.1
  if steer.mag > 0 then ((steer.normalize).mult a.maxSpeed).sub a.velocity
  else steer

end Agent

/-- Tunable parameter set of `Simulation.js` (`this.params`). -/
structure Params where
  numAgents : ℕ
  separationWeight : ℝ
  alignmentWeight : ℝ
  cohesionWeight : ℝ
  goalWeight : ℝ
  perceptionRadius : ℝ

/-- The default parameter values set in the `Simulation` constructor. -/
def defaultParams : Params :=
  { numAgents := 50
    separationWeight := 1.5
    alignmentWeight := 1.0
    cohesionWeight := 1.0
    goalWeight := 1.2
    perceptionRadius := 50 }

/-- Fallback agent for out-of-range list indexing; the source never indexes
out of range, so its value is irrelevant. -/
def dfltAgent : Agent := mkAgent 0 0 2 50 20

/-- State of `Simulation.js` that the per-frame logic reads and writes.
The canvas, rendering context and wall-clock `startTime` are external
collaborators (drawing and the evacuation-time console log) and carry no
influence on the simulated trajectories; they are omitted.  The live agent
array is `agents`; an agent object is identified by its index in the
frame-start array. -/
structure Simulation where
  width : ℝ
  height : ℝ
  env : Environment
  agents : List Agent
  frame : ℕ
  maxDensity : ℝ
  jamCount : ℕ
  params : Params
  gridSize : ℝ
  averageSpeed : ℝ

namespace Simulation

/-- Number of grid columns, `Math.ceil(canvas.width / gridSize)` from
`setupGrid` (`this.grid.length`). -/
def cols (s : Simulation) : ℤ := ⌈s.width / s.gridSize⌉

/-- Number of grid rows, `Math.ceil(canvas.height / gridSize)` from
`setupGrid` (`this.grid[0].length`, defined whenever `cols > 0`). -/
def rows (s : Simulation) : ℤ := ⌈s.height / s.gridSize⌉

end Simulation

/-- One step of the bucket-filling loop of `Simulation.updateGrid`: place the
agent of index `k` into the bucket of its floored position when that bucket is
inside the grid bounds, silently dropping it otherwise. -/
def insertAgent (gs : ℝ) (cols rows : ℤ) (agents : List Agent)
    (g : ℤ → ℤ → List ℕ) (k : ℕ) : ℤ → ℤ → List ℕ :=
  let a := agents.getD k dfltAgent
  let col := ⌊a.position.x / gs⌋
  let row := ⌊a.position.y / gs⌋
  if 0 ≤ col ∧ col < cols ∧ 0 ≤ row ∧ row < rows then
    fun c r => if c = col ∧ r = row then g c r ++ [k] else g c r
  else g

/-- The grid produced by `Simulation.updateGrid` after clearing all buckets
and placing the first `n` agents in order; a bucket is the list of agent
indices pushed into it. -/
def buildGrid (gs : ℝ) (cols rows : ℤ) (agents : List Agent) (n : ℕ) :
    ℤ → ℤ → List ℕ :=
  (List.range n).foldl (insertAgent gs cols rows agents) (fun _ _ => [])

/-- Method `updateGrid` of `Simulation.js`, rebuilt from the current agent
array. -/
def Simulation.updateGrid (s : Simulation) : ℤ → ℤ → List ℕ :=
  buildGrid s.gridSize s.cols s.rows s.agents s.agents.length

/-- The neighbor predicate of `Simulation.getNeighbors`:
`other !== agent && agent.position.dist(other.position) < agent.perceptionRadius`,
with object identity rendered as index identity. -/
def neighborCond (store : List Agent) (selfIdx : ℕ) (k : ℕ) : Prop :=
  k ≠ selfIdx ∧
    (store.getD selfIdx dfltAgent).position.dist
        ((store.getD k dfltAgent).position) <
      (store.getD selfIdx dfltAgent).perceptionRadius

/-- The offsets `-range, …, range` scanned by the two nested loops of
`getNeighbors` (empty when `range` is negative, as the source loop would not
run). -/
def scanOffsets (range : ℤ) : List ℤ :=
  (List.range (2 * range + 1).toNat).map (fun t => -range + t)

/-- The bucket contents of `getNeighbors` in scan order: for each in-bounds
bucket of the square ring neighborhood, its agent indices in bucket order. -/
def scanList (grid : ℤ → ℤ → List ℕ) (cols rows : ℤ) (gs : ℝ)
    (store : List Agent) (selfIdx : ℕ) : List ℕ :=
  let a := store.getD selfIdx dfltAgent
  let col := ⌊a.position.x / gs⌋
  let row := ⌊a.position.y / gs⌋
  let range : ℤ := ⌈a.perceptionRadius / gs⌉
  (scanOffsets range).flatMap (fun i =>
    (scanOffsets range).flatMap (fun j =>
      let c := col + i
      let r := row + j
      if 0 ≤ c ∧ c < cols ∧ 0 ≤ r ∧ r < rows then grid c r else []))

/-- The accumulation loop of `getNeighbors`: push every index satisfying the
predicate and return as soon as ten have been collected. -/
def collect (p : ℕ → Prop) : List ℕ → List ℕ → List ℕ
  | [], acc => acc
  | k :: rest, acc =>
    if p k then
      if 10 ≤ (acc ++ [k]).length then acc ++ [k]
      else collect p rest (acc ++ [k])
    else collect p rest acc

/-- Method `getNeighbors` of `Simulation.js` for the agent object of index
`selfIdx`. -/
def getNeighbors (grid : ℤ → ℤ → List ℕ) (cols rows : ℤ) (gs : ℝ)
    (store : List Agent) (selfIdx : ℕ) : List ℕ :=
  collect (neighborCond store selfIdx) (scanList grid cols rows gs store selfIdx) []

/-- The combined per-agent force of `Simulation.update`: the four weighted
flocking/goal forces plus the wall-avoidance force weighted by `1.5`, summed
into a fresh zero vector. -/
def totalForce (env : Environment) (params : Params) (a : Agent)
    (neighbors : List Agent) : Vector :=
  let separationF := (a.separation neighbors).mult params.separationWeight
  let alignmentF := (a.alignment neighbors).mult params.alignmentWeight
  let cohesionF := (a.cohesion neighbors).mult params.cohesionWeight
  let goalF := (a.seekGoal (exitCenter env)).mult params.goalWeight
  let wallF := (a.wallAvoidance env).mult 1.5
  (((((Vector.mk 0 0).add separationF).add alignmentF).add cohesionF).add goalF).add wallF

/-- Data produced by one sweep of the agent loop of `Simulation.update`:
the store of final agent-object values, the indices spliced out at the exit,
the accumulated `totalSpeed`, and the `jamThisFrame` count. -/
structure FrameResult where
  store : List Agent
  removed : List ℕ
  totalSpeed : ℝ
  jamThisFrame : ℕ

/-- The agent loop of `Simulation.update`, iterating `i` from
`agents.length - 1` down to `0`.  The store holds the live values of the
frame-start agent objects: entry `i` is mutated exactly when index `i` is
processed, so neighbor reads through the frame-start grid see the already
updated values of later-processed (higher) indices — the reference's live
mutable-object semantics.  Splicing index `i` out only reindexes entries above
`i`, which are already processed, so the source's in-loop splice is the
removal set applied after the sweep. -/
def processLoop (env : Environment) (params : Params) (grid : ℤ → ℤ → List ℕ)
    (cols rows : ℤ) (gs : ℝ) : ℕ → List Agent → FrameResult
  | 0, store => ⟨store, [], 0, 0⟩
  | (i + 1), store =>
    let neighborIds := getNeighbors grid cols rows gs store i
    let neighbors := neighborIds.map (fun k => store.getD k dfltAgent)
    let a := store.getD i dfltAgent
    let a1 := a.applyForce (totalForce env params a neighbors)
    let a2 := Agent.update env a1
    let res := processLoop env params grid cols rows gs i (store.set i a2)
    { store := res.store
      removed := (if env.isAtExit a2.position then [i] else []) ++ res.removed
      totalSpeed := a2.velocity.mag + res.totalSpeed
      jamThisFrame := (if a2.velocity.mag < 0.5 then 1 else 0) + res.jamThisFrame }

/-- The frame sweep of `Simulation.update` on the current state. -/
def Simulation.updateData (s : Simulation) : FrameResult :=
  processLoop s.env s.params s.updateGrid s.cols s.rows s.gridSize
    s.agents.length s.agents

/-- The indices of the agents still in `this.agents` after the frame's exit
splices, in array order. -/
def Simulation.survivors (s : Simulation) : List ℕ :=
  (List.range s.agents.length).filter (fun i => i ∉ s.updateData.removed)

/-- Method `calculateMaxDensity` of `Simulation.js`, run after the sweep on
the surviving agents with the frame-start grid. -/
def calculateMaxDensity (grid : ℤ → ℤ → List ℕ) (cols rows : ℤ) (gs : ℝ)
    (store : List Agent) (indices : List ℕ) : ℝ :=
  indices.foldl
    (fun maxD k =>
      let nbs := getNeighbors grid cols rows gs store k
      let a := store.getD k dfltAgent
      max maxD ((nbs.length : ℝ) / (Real.pi * a.perceptionRadius ^ 2)))
    0

/-- Method `update` of `Simulation.js`: increment the frame counter, rebuild
the grid, sweep the agents, splice the exited ones, and update the running
statistics.  The evacuation-complete branch only logs wall-clock output. -/
def Simulation.update (s : Simulation) : Simulation :=
  let res := s.updateData
  let newAgents := s.survivors.map (fun i => res.store.getD i dfltAgent)
  let density := calculateMaxDensity s.updateGrid s.cols s.rows s.gridSize
    res.store s.survivors
  { s with
    frame := s.frame + 1
    agents := newAgents
    maxDensity := max s.maxDensity density
    jamCount := s.jamCount + (if 0 < res.jamThisFrame then 1 else 0)
    averageSpeed :=
      if 0 < newAgents.length then res.totalSpeed / (newAgents.length : ℝ) else 0 }

/-- Iterated frames: `N` successive calls of `Simulation.update`. -/
def stepN : ℕ → Simulation → Simulation
  | 0, s => s
  | (n + 1), s => stepN n s.update

/-- Helper for concrete evaluations: a square root evaluated at a perfect
square. -/
theorem sqrt_eval {a b : ℝ} (hb : 0 ≤ b) (h : b ^ 2 = a) : Real.sqrt a = b := by
  rw [← h, Real.sqrt_sq hb]

/-- Helper for concrete evaluations: a lower bound on a square root. -/
theorem sqrt_ge {a b : ℝ} (hb : 0 ≤ b) (h : b ^ 2 ≤ a) : b ≤ Real.sqrt a := by
  rw [← Real.sqrt_sq hb]
  exact Real.sqrt_le_sqrt h

theorem Vector.mag_zero : (⟨0, 0⟩ : Vector).mag = 0 := by
  unfold Vector.mag
  rw [show (0 : ℝ) * 0 + 0 * 0 = 0 by norm_num, Real.sqrt_zero]

theorem Vector.normalize_zero : (⟨0, 0⟩ : Vector).normalize = ⟨0, 0⟩ := by
  unfold Vector.normalize
  rw [if_neg (by rw [Vector.mag_zero]; exact fun h => h rfl)]

theorem Vector.sub_zero_vec (v : Vector) : v.sub ⟨0, 0⟩ = v := by
  unfold Vector.sub
  cases v
  norm_num

/-- The default reference environment on an `800 × 600` canvas. -/
def envD : Environment := mkEnvironment 800 600

/-- Concrete agent for the `C1` witness: velocity `(3, 4)` of magnitude `5`,
`maxSpeed = 2`. -/
def agC1 : Agent :=
  { position := ⟨400, 300⟩
    velocity := ⟨3, 4⟩
    maxSpeed := 2
    perceptionRadius := 50
    desiredSeparation := 20
    radius := 5
    wallPerceptionRadius := 30 }

/-- C1: after `Agent.update(env)` returns, the magnitude of the agent's
velocity is at most the agent's `maxSpeed` (for `maxSpeed > 0`): `update`
first clamps the velocity to `maxSpeed` and the only later velocity change is
multiplication by `0.8`. -/
theorem C1_speed_invariant (env : Environment) (a : Agent)
    (h : 0 < a.maxSpeed) :
    ((Agent.update env a).velocity).mag ≤ a.maxSpeed := by
  simp only [Agent.update]
  split
  · exact Vector.mag_limit_le _ h.le
  · have hlim : (a.velocity.limit a.maxSpeed).mag ≤ a.maxSpeed :=
      Vector.mag_limit_le _ h.le
    have hmag := Vector.mag_nonneg (a.velocity.limit a.maxSpeed)
    rw [Vector.mag_mult]
    rw [show |(0.8 : ℝ)| = 0.8 by norm_num]
    nlinarith

/-- Witness for C1 at the concrete agent `agC1` in the default environment. -/
theorem C1_speed_invariant_witness :
    0 < agC1.maxSpeed ∧ ((Agent.update envD agC1).velocity).mag ≤ agC1.maxSpeed :=
  ⟨by norm_num [agC1], C1_speed_invariant envD agC1 (by norm_num [agC1])⟩

/-- C9: `Vector.div` with scalar exactly zero leaves both components unchanged
(a silent no-op), and `Vector.normalize` on a vector of magnitude exactly zero
leaves the vector unchanged. -/
theorem C9_zero_guards (v : Vector) :
    v.div 0 = v ∧ (v.mag = 0 → v.normalize = v) := by
  constructor
  · unfold Vector.div
    rw [if_neg (by simp)]
  · intro h
    unfold Vector.normalize
    rw [if_neg (by rw [h]; exact fun hc => hc rfl)]

/-- Witness for C9 at the zero vector, whose magnitude evaluates to zero. -/
theorem C9_zero_guards_witness :
    (⟨0, 0⟩ : Vector).mag = 0 ∧ (⟨0, 0⟩ : Vector).div 0 = ⟨0, 0⟩ ∧
      (⟨0, 0⟩ : Vector).normalize = ⟨0, 0⟩ :=
  ⟨Vector.mag_zero, (C9_zero_guards ⟨0, 0⟩).1,
    (C9_zero_guards ⟨0, 0⟩).2 Vector.mag_zero⟩

/-- Concrete agent refuting C6: at `(0,0)` moving at full speed straight
toward the goal `(1,0)`. -/
def agC6 : Agent :=
  { position := ⟨0, 0⟩
    velocity := ⟨2, 0⟩
    maxSpeed := 2
    perceptionRadius := 50
    desiredSeparation := 20
    radius := 5
    wallPerceptionRadius := 30 }

/-- Counterexample to C6 as stated: an agent not located at the goal whose
`seekGoal` is nevertheless exactly the zero vector, because its current
velocity already equals the desired velocity `maxSpeed · normalize(goal − position)`. -/
theorem C6_counterexample :
    agC6.seekGoal ⟨1, 0⟩ = ⟨0, 0⟩ ∧ agC6.position ≠ (⟨1, 0⟩ : Vector) := by
  constructor
  · have hsub : (⟨1, 0⟩ : Vector).sub agC6.position = ⟨1, 0⟩ := by
      unfold agC6 Vector.sub
      norm_num
    have hmag : (⟨1, 0⟩ : Vector).mag = 1 := by
      unfold Vector.mag
      rw [show (1 : ℝ) * 1 + 0 * 0 = 1 by norm_num, Real.sqrt_one]
    unfold Agent.seekGoal
    rw [hsub]
    unfold Vector.normalize
    rw [if_pos (by rw [hmag]; exact one_ne_zero), hmag]
    unfold Vector.div Vector.mult Vector.sub agC6
    rw [if_pos one_ne_zero]
    norm_num
  · intro h
    have := congrArg Vector.x h
    unfold agC6 at this
    norm_num at this

/-- C6 amended: `seekGoal` returns
`maxSpeed · normalize(goal − position) − velocity`, which can vanish away from
the goal when the velocity already equals the desired vector; the claimed
equivalence holds for agents whose current velocity is zero: for them, with
`maxSpeed > 0`, the result is the zero vector exactly when the position equals
the goal. -/
theorem C6_amended (a : Agent) (goal : Vector) (hv : a.velocity = ⟨0, 0⟩)
    (hms : 0 < a.maxSpeed) :
    (a.seekGoal goal = ⟨0, 0⟩ ↔ a.position = goal) := by
  unfold Agent.seekGoal
  rw [hv]
  constructor
  · intro h
    by_contra hne
    have hsub : goal.sub a.position ≠ ⟨0, 0⟩ := by
      intro hc
      apply hne
      have hx := congrArg Vector.x hc
      have hy := congrArg Vector.y hc
      simp only [Vector.sub] at hx hy
      ext
      · linarith
      · linarith
    have hmagsub : (goal.sub a.position).mag ≠ 0 := by
      intro hc
      exact hsub ((Vector.mag_eq_zero_iff _).mp hc)
    have hmagres : ((((goal.sub a.position).normalize).mult a.maxSpeed).sub ⟨0, 0⟩).mag ≠ 0 := by
      rw [Vector.sub_zero_vec, Vector.mag_mult, Vector.mag_normalize hmagsub,
        mul_one, abs_of_pos hms]
      exact ne_of_gt hms
    rw [h] at hmagres
    exact hmagres Vector.mag_zero
  · intro h
    have hsub : goal.sub a.position = ⟨0, 0⟩ := by
      rw [h]
      unfold Vector.sub
      norm_num
    rw [hsub, Vector.normalize_zero]
    unfold Vector.mult Vector.sub
    norm_num

/-- Witness for the amended C6 at a concrete zero-velocity agent. -/
theorem C6_amended_witness :
    (mkAgent 3 4 2 50 20).velocity = ⟨0, 0⟩ ∧ 0 < (mkAgent 3 4 2 50 20).maxSpeed ∧
      ((mkAgent 3 4 2 50 20).seekGoal ⟨9, 9⟩ = ⟨0, 0⟩ ↔
        (mkAgent 3 4 2 50 20).position = ⟨9, 9⟩) :=
  ⟨rfl, by norm_num [mkAgent],
    C6_amended (mkAgent 3 4 2 50 20) ⟨9, 9⟩ rfl (by norm_num [mkAgent])⟩

/-- The velocity-summing fold of `Agent.alignment` computes the componentwise
sum of the neighbor velocities together with the neighbor count. -/
theorem alignment_fold (l : List Agent) (z : Vector) (c : ℕ) :
    l.foldl (fun (p : Vector × ℕ) nb => (p.1.add nb.velocity, p.2 + 1)) (z, c) =
      (⟨z.x + (l.map (fun nb => nb.velocity.x)).sum,
        z.y + (l.map (fun nb => nb.velocity.y)).sum⟩, c + l.length) := by
  induction l generalizing z c with
  | nil => cases z; simp
  | cons hd tl ih =>
    simp only [List.foldl_cons, List.map_cons, List.sum_cons, List.length_cons]
    rw [ih]
    unfold Vector.add
    simp only [Prod.mk.injEq, Vector.mk.injEq]
    refine ⟨⟨by ring, by ring⟩, by omega⟩

/-- C10: for a non-empty neighbor set whose velocities sum to the zero vector,
`Agent.alignment` returns the negation of the agent's current velocity — a
braking force — because the zero mean velocity passes unchanged through
`normalize` and `mult` before the current velocity is subtracted. -/
theorem C10_alignment_braking (a : Agent) (neighbors : List Agent)
    (hne : neighbors ≠ [])
    (hx : (neighbors.map (fun nb => nb.velocity.x)).sum = 0)
    (hy : (neighbors.map (fun nb => nb.velocity.y)).sum = 0) :
    a.alignment neighbors = ⟨-a.velocity.x, -a.velocity.y⟩ := by
  unfold Agent.alignment
  rw [alignment_fold, hx, hy]
  simp only [add_zero, Nat.zero_add]
  rw [if_pos (List.length_pos.mpr hne)]
  have hdiv : (⟨(0 : ℝ), (0 : ℝ)⟩ : Vector).div (neighbors.length : ℝ) = ⟨0, 0⟩ := by
    unfold Vector.div
    split <;> norm_num
  rw [hdiv, Vector.normalize_zero]
  unfold Vector.mult Vector.sub
  norm_num

/-- Concrete agent for the C10 witness, moving at `(3, 7)`. -/
def agC10 : Agent :=
  { position := ⟨60, 60⟩
    velocity := ⟨3, 7⟩
    maxSpeed := 2
    perceptionRadius := 50
    desiredSeparation := 20
    radius := 5
    wallPerceptionRadius := 30 }

/-- Witness for C10: one stationary neighbor and an agent moving at `(3, 7)`. -/
theorem C10_alignment_braking_witness :
    [dfltAgent] ≠ ([] : List Agent) ∧
      (([dfltAgent].map (fun nb => nb.velocity.x)).sum = 0 ∧
        ([dfltAgent].map (fun nb => nb.velocity.y)).sum = 0) ∧
      agC10.alignment [dfltAgent] = ⟨-agC10.velocity.x, -agC10.velocity.y⟩ :=
  ⟨by simp, ⟨by simp [dfltAgent, mkAgent], by simp [dfltAgent, mkAgent]⟩,
    C10_alignment_braking agC10 [dfltAgent] (by simp)
      (by simp [dfltAgent, mkAgent]) (by simp [dfltAgent, mkAgent])⟩

/-- Counterexample to C2 as stated: at `(150, 150)` in the default
environment, the walls-and-bounds-only test passes, yet `isPositionValid`
returns false — the agent square overlaps the restricted zone
`{x:100, y:100, w:100, h:100}`, so restricted zones do cause rejection. -/
theorem C2_counterexample :
    ¬ envD.isPositionValid ⟨150, 150⟩ ∧ envD.isPositionValidWallsOnly ⟨150, 150⟩ := by
  constructor
  · intro h
    have hz := h.2.1 ⟨100, 100, 100, 100⟩ (by simp [envD, mkEnvironment])
    apply hz
    unfold rectIntersect agentRectAt
    norm_num
  · constructor
    · intro r hr
      simp only [envD, mkEnvironment, List.mem_cons, List.not_mem_nil, or_false] at hr
      rcases hr with h | h | h | h | h <;> subst h <;>
        (unfold rectIntersect agentRectAt; norm_num)
    · norm_num [envD, mkEnvironment]

/-- C2 amended: `isPositionValid` checks the restricted zones in addition to
the walls and the boundary box — it holds exactly when the walls-and-bounds
test passes and the agent square also avoids every restricted-zone
rectangle. -/
theorem C2_amended (env : Environment) (pos : Vector) :
    env.isPositionValid pos ↔
      (env.isPositionValidWallsOnly pos ∧
        ∀ r ∈ env.restrictedZones, ¬ rectIntersect (agentRectAt pos) r) := by
  unfold Environment.isPositionValid Environment.isPositionValidWallsOnly
  tauto

/-- Unfolding the bucket-filling loop of `updateGrid` one agent at a time. -/
theorem buildGrid_succ (gs : ℝ) (cols rows : ℤ) (agents : List Agent) (n : ℕ) :
    buildGrid gs cols rows agents (n + 1) =
      insertAgent gs cols rows agents (buildGrid gs cols rows agents n) n := by
  unfold buildGrid
  rw [List.range_succ, List.foldl_append, List.foldl_cons, List.foldl_nil]

/-- Membership condition for the rebuilt grid: index `k` belongs to bucket
`(i, j)` exactly when `k` is an in-range agent index, `(i, j)` is the floored
position of agent `k`, and that bucket lies inside the grid bounds. -/
def gridCond (gs : ℝ) (cols rows : ℤ) (agents : List Agent) (n : ℕ)
    (i j : ℤ) (k : ℕ) : Prop :=
  k < n ∧ i = ⌊(agents.getD k dfltAgent).position.x / gs⌋ ∧
    j = ⌊(agents.getD k dfltAgent).position.y / gs⌋ ∧
    0 ≤ i ∧ i < cols ∧ 0 ≤ j ∧ j < rows

/-- Each agent index occurs in a bucket of the rebuilt grid with multiplicity
one at the bucket of its floored position (when in bounds) and zero
everywhere else. -/
theorem count_buildGrid (gs : ℝ) (cols rows : ℤ) (agents : List Agent)
    (n : ℕ) (i j : ℤ) (k : ℕ) :
    (buildGrid gs cols rows agents n i j).count k =
      if gridCond gs cols rows agents n i j k then 1 else 0 := by
  induction n with
  | zero =>
    rw [if_neg (fun hc => Nat.not_lt_zero k hc.1)]
    simp [buildGrid]
  | succ n ih =>
    rw [buildGrid_succ]
    simp only [insertAgent]
    by_cases hb : 0 ≤ ⌊(agents.getD n dfltAgent).position.x / gs⌋ ∧
        ⌊(agents.getD n dfltAgent).position.x / gs⌋ < cols ∧
        0 ≤ ⌊(agents.getD n dfltAgent).position.y / gs⌋ ∧
        ⌊(agents.getD n dfltAgent).position.y / gs⌋ < rows
    · rw [if_pos hb]
      by_cases hij : i = ⌊(agents.getD n dfltAgent).position.x / gs⌋ ∧
          j = ⌊(agents.getD n dfltAgent).position.y / gs⌋
      · rw [if_pos hij, List.count_append, ih]
        by_cases hk : k = n
        · subst hk
          rw [if_neg (fun hc => lt_irrefl k hc.1)]
          rw [if_pos ⟨Nat.lt_succ_self k, hij.1, hij.2, hij.1 ▸ hb.1,
            hij.1 ▸ hb.2.1, hij.2 ▸ hb.2.2.1, hij.2 ▸ hb.2.2.2⟩]
          simp
        · have hcnt : List.count k [n] = 0 := by
            simp [List.count_singleton']
            omega
          rw [hcnt]
          unfold gridCond
          by_cases hC : k < n ∧ i = ⌊(agents.getD k dfltAgent).position.x / gs⌋ ∧
              j = ⌊(agents.getD k dfltAgent).position.y / gs⌋ ∧
              0 ≤ i ∧ i < cols ∧ 0 ≤ j ∧ j < rows
          · rw [if_pos hC, if_pos ⟨Nat.lt_succ_of_lt hC.1, hC.2⟩]
          · rw [if_neg hC, if_neg (fun hc => hC ⟨by omega, hc.2⟩)]
      · rw [if_neg hij, ih]
        unfold gridCond
        by_cases hk : k = n
        · subst hk
          rw [if_neg (fun hc => lt_irrefl k hc.1),
            if_neg (fun hc => hij ⟨hc.2.1, hc.2.2.1⟩)]
        · by_cases hC : k < n ∧ i = ⌊(agents.getD k dfltAgent).position.x / gs⌋ ∧
              j = ⌊(agents.getD k dfltAgent).position.y / gs⌋ ∧
              0 ≤ i ∧ i < cols ∧ 0 ≤ j ∧ j < rows
          · rw [if_pos hC, if_pos ⟨Nat.lt_succ_of_lt hC.1, hC.2⟩]
          · rw [if_neg hC, if_neg (fun hc => hC ⟨by omega, hc.2⟩)]
    · rw [if_neg hb, ih]
      unfold gridCond
      by_cases hk : k = n
      · subst hk
        have hnotC : ¬(k < k + 1 ∧ i = ⌊(agents.getD k dfltAgent).position.x / gs⌋ ∧
            j = ⌊(agents.getD k dfltAgent).position.y / gs⌋ ∧
            0 ≤ i ∧ i < cols ∧ 0 ≤ j ∧ j < rows) := by
          rintro ⟨_, h2, h3, h4, h5, h6, h7⟩
          exact hb ⟨h2 ▸ h4, h2 ▸ h5, h3 ▸ h6, h3 ▸ h7⟩
        rw [if_neg (fun hc => lt_irrefl k hc.1), if_neg hnotC]
      · by_cases hC : k < n ∧ i = ⌊(agents.getD k dfltAgent).position.x / gs⌋ ∧
            j = ⌊(agents.getD k dfltAgent).position.y / gs⌋ ∧
            0 ≤ i ∧ i < cols ∧ 0 ≤ j ∧ j < rows
        · rw [if_pos hC, if_pos ⟨Nat.lt_succ_of_lt hC.1, hC.2⟩]
        · rw [if_neg hC, if_neg (fun hc => hC ⟨by omega, hc.2⟩)]

/-- C4: after `Simulation.updateGrid`, each active agent appears exactly once
in the bucket of its floored position when that bucket is inside the grid's
bounds, in no bucket when it is out of range, and every bucket holds exactly
the matching agents with no duplicates. -/
theorem C4_grid_rebuild (s : Simulation) :
    (∀ i j : ℤ, ∀ k : ℕ,
      (s.updateGrid i j).count k =
        if gridCond s.gridSize s.cols s.rows s.agents s.agents.length i j k
        then 1 else 0) ∧
    ∀ i j : ℤ, (s.updateGrid i j).Nodup := by
  constructor
  · intro i j k
    exact count_buildGrid s.gridSize s.cols s.rows s.agents s.agents.length i j k
  · intro i j
    rw [List.nodup_iff_count_le_one]
    intro k
    rw [show s.updateGrid i j =
        buildGrid s.gridSize s.cols s.rows s.agents s.agents.length i j from rfl,
      count_buildGrid]
    split <;> omega

/-- The accumulation loop of `getNeighbors` collects, in scan order, the first
matches up to the ten-slot budget left in the accumulator. -/
theorem collect_eq (p : ℕ → Prop) (l : List ℕ) :
    ∀ acc : List ℕ, acc.length < 10 →
      collect p l acc = acc ++ (l.filter (fun k => decide (p k))).take (10 - acc.length) := by
  induction l with
  | nil => intro acc _; simp [collect]
  | cons k rest ih =>
    intro acc hacc
    unfold collect
    by_cases hp : p k
    · rw [if_pos hp]
      have hlen : (acc ++ [k]).length = acc.length + 1 := by simp
      by_cases h10 : 10 ≤ (acc ++ [k]).length
      · rw [if_pos h10]
        have h9 : acc.length = 9 := by omega
        simp only [List.filter_cons, decide_eq_true_eq, hp, if_pos, h9]
        simp [List.take_succ_cons]
      · rw [if_neg h10, ih (acc ++ [k]) (by omega)]
        simp only [List.filter_cons, decide_eq_true_eq, hp, if_pos, hlen]
        have htake : (10 - acc.length) = (10 - (acc.length + 1)) + 1 := by omega
        rw [htake, List.take_succ_cons, List.append_assoc, List.singleton_append]
    · rw [if_neg hp, ih acc hacc]
      simp only [List.filter_cons, decide_eq_true_eq, hp]
      simp

/-- C5: `Simulation.getNeighbors` returns the first ten indices, in bucket
scan order, that are distinct from the querying agent and strictly within its
perception radius — hence at most ten results, each a true neighbor, with the
scan cut off as soon as ten matches are collected. -/
theorem C5_getNeighbors (grid : ℤ → ℤ → List ℕ) (cols rows : ℤ) (gs : ℝ)
    (store : List Agent) (selfIdx : ℕ) :
    getNeighbors grid cols rows gs store selfIdx =
      ((scanList grid cols rows gs store selfIdx).filter
        (fun k => decide (neighborCond store selfIdx k))).take 10 ∧
    (getNeighbors grid cols rows gs store selfIdx).length ≤ 10 ∧
    ∀ k ∈ getNeighbors grid cols rows gs store selfIdx,
      k ≠ selfIdx ∧
        (store.getD selfIdx dfltAgent).position.dist
            ((store.getD k dfltAgent).position) <
          (store.getD selfIdx dfltAgent).perceptionRadius := by
  have hmain : getNeighbors grid cols rows gs store selfIdx =
      ((scanList grid cols rows gs store selfIdx).filter
        (fun k => decide (neighborCond store selfIdx k))).take 10 := by
    unfold getNeighbors
    rw [collect_eq _ _ [] (by norm_num)]
    simp
  refine ⟨hmain, ?_, ?_⟩
  · rw [hmain]
    exact List.length_take_le 10 _
  · intro k hk
    rw [hmain] at hk
    have hk2 := List.mem_of_mem_filter (List.take_subset 10 _ hk)
    have hk3 := List.of_mem_filter (List.take_subset 10 _ hk)
    simp only [decide_eq_true_eq] at hk3
    exact hk3

theorem getD_set_ne {α : Type} (l : List α) (i j : ℕ) (a d : α) (h : i ≠ j) :
    (l.set i a).getD j d = l.getD j d := by
  simp [List.getD_eq_getElem?_getD, List.getElem?_set_ne h]

theorem getD_set_self {α : Type} (l : List α) (i : ℕ) (a d : α)
    (h : i < l.length) : (l.set i a).getD i d = a := by
  simp [List.getD_eq_getElem?_getD, List.getElem?_set_self h]

/-- The integration step of `Agent.update` moves the agent by at most its
(nonnegative) `maxSpeed`: the clamped velocity, possibly dampened by `0.8`. -/
theorem update_dist_le (env : Environment) (a : Agent) (hms : 0 ≤ a.maxSpeed) :
    ((Agent.update env a).position).dist a.position ≤ a.maxSpeed := by
  simp only [Agent.update]
  split
  · rw [Vector.dist_add_left]
    exact Vector.mag_limit_le _ hms
  · rw [Vector.dist_add_left, Vector.mag_mult]
    have hlim := Vector.mag_limit_le a.velocity hms
    have h0 := Vector.mag_nonneg (a.velocity.limit a.maxSpeed)
    rw [show |(0.8 : ℝ)| = 0.8 by norm_num]
    nlinarith

/-- When an agent with `maxSpeed = 2` sits at the exit center, the processed
agent of this frame — whatever force the sweep applied — ends the step within
the exit-arrival threshold. -/
theorem exit_step (env : Environment) (a : Agent) (F : Vector)
    (hpos : a.position = exitCenter env) (hms : a.maxSpeed = 2) :
    env.isAtExit (Agent.update env (a.applyForce F)).position := by
  have hms2 : (a.applyForce F).maxSpeed = 2 := hms
  have hd := update_dist_le env (a.applyForce F) (by rw [hms2]; norm_num)
  rw [hms2] at hd
  have hpos2 : (a.applyForce F).position = exitCenter env := hpos
  rw [hpos2] at hd
  unfold Environment.isAtExit
  linarith

/-- In the frame sweep, the store entry of an index not yet processed is
untouched, so an agent at the exit center with `maxSpeed = 2` at its turn is
spliced out. -/
theorem processLoop_removes (env : Environment) (params : Params)
    (grid : ℤ → ℤ → List ℕ) (cols rows : ℤ) (gs : ℝ) (i : ℕ) :
    ∀ (k : ℕ) (store : List Agent), i < k →
      (store.getD i dfltAgent).position = exitCenter env →
      (store.getD i dfltAgent).maxSpeed = 2 →
      i ∈ (processLoop env params grid cols rows gs k store).removed := by
  intro k
  induction k with
  | zero => intro store h _ _; omega
  | succ k ih =>
    intro store hik hpos hms
    simp only [processLoop]
    rw [List.mem_append]
    by_cases hk : i = k
    · subst hk
      rw [if_pos (exit_step env (store.getD i dfltAgent)
        (totalForce env params (store.getD i dfltAgent)
          ((getNeighbors grid cols rows gs store i).map
            (fun k => store.getD k dfltAgent))) hpos hms)]
      exact Or.inl (List.mem_singleton_self i)
    · refine Or.inr (ih _ (by omega) ?_ ?_)
      · rw [getD_set_ne _ _ _ _ _ (fun hc => hk hc.symm)]
        exact hpos
      · rw [getD_set_ne _ _ _ _ _ (fun hc => hk hc.symm)]
        exact hms

/-- C3: in the default environment, an agent positioned at the exit
rectangle's exact center (with the default `maxSpeed = 2`) is spliced out of
the active set by a single `Simulation.update`: its one integration step moves
it by at most `2 < 10` units, so `isAtExit` fires at its turn in the sweep. -/
theorem C3_exit_center_removed (s : Simulation) (i : ℕ)
    (hi : i < s.agents.length)
    (hpos : (s.agents.getD i dfltAgent).position = exitCenter s.env)
    (hms : (s.agents.getD i dfltAgent).maxSpeed = 2) :
    i ∈ s.updateData.removed ∧ i ∉ s.survivors := by
  have hrem : i ∈ s.updateData.removed :=
    processLoop_removes s.env s.params s.updateGrid s.cols s.rows s.gridSize i
      s.agents.length s.agents hi hpos hms
  refine ⟨hrem, ?_⟩
  intro hmem
  unfold Simulation.survivors at hmem
  rw [List.mem_filter] at hmem
  exact (of_decide_eq_true hmem.2) hrem

/-- The single agent of the C3 witness: placed exactly at the exit center of
the default environment with zero velocity. -/
def agExit : Agent :=
  { position := exitCenter envD
    velocity := ⟨0, 0⟩
    maxSpeed := 2
    perceptionRadius := 50
    desiredSeparation := 20
    radius := 5
    wallPerceptionRadius := 30 }

/-- A one-agent simulation on the default `800 × 600` canvas with the agent
at the exit center. -/
def csim3 : Simulation :=
  { width := 800
    height := 600
    env := envD
    agents := [agExit]
    frame := 0
    maxDensity := 0
    jamCount := 0
    params := defaultParams
    gridSize := 50
    averageSpeed := 0 }

/-- Witness for C3 at the concrete one-agent simulation `csim3`. -/
theorem C3_exit_center_removed_witness :
    0 < csim3.agents.length ∧
      (csim3.agents.getD 0 dfltAgent).position = exitCenter csim3.env ∧
      (csim3.agents.getD 0 dfltAgent).maxSpeed = 2 ∧
      (0 ∈ csim3.updateData.removed ∧ 0 ∉ csim3.survivors) :=
  ⟨by norm_num [csim3], by simp [csim3, agExit], by simp [csim3, agExit],
    C3_exit_center_removed csim3 0 (by norm_num [csim3])
      (by simp [csim3, agExit]) (by simp [csim3, agExit])⟩

/-- The new agent array of one frame as a function of exactly the data it
reads: the environment, the parameters, the canvas dimensions, the grid cell
size and the agent list. -/
def frameAgents (env : Environment) (params : Params) (w h gs : ℝ)
    (agents : List Agent) : List Agent :=
  let cols : ℤ := ⌈w / gs⌉
  let rows : ℤ := ⌈h / gs⌉
  let res := processLoop env params (buildGrid gs cols rows agents agents.length)
    cols rows gs agents.length agents
  ((List.range agents.length).filter (fun i => i ∉ res.removed)).map
    (fun i => res.store.getD i dfltAgent)

/-- The agent array produced by `Simulation.update` is `frameAgents` of the
fields it reads. -/
theorem update_agents (s : Simulation) :
    (s.update).agents =
      frameAgents s.env s.params s.width s.height s.gridSize s.agents := rfl

/-- The trajectory component of one frame depends only on the agent list, the
environment, the parameters and the grid geometry. -/
theorem update_agents_congr (s1 s2 : Simulation) (hag : s1.agents = s2.agents)
    (henv : s1.env = s2.env) (hp : s1.params = s2.params)
    (hw : s1.width = s2.width) (hh : s1.height = s2.height)
    (hg : s1.gridSize = s2.gridSize) :
    (s1.update).agents = (s2.update).agents := by
  rw [update_agents s1, update_agents s2, hag, henv, hp, hw, hh, hg]

/-- C8: `Simulation.update` is deterministic — from equal agent lists, equal
environments, equal parameters and equal grid geometry (wall-clock statistics
and counters aside), every number of frames produces identical agent
trajectories, positions and velocities included. -/
theorem C8_determinism (s1 s2 : Simulation) (hag : s1.agents = s2.agents)
    (henv : s1.env = s2.env) (hp : s1.params = s2.params)
    (hw : s1.width = s2.width) (hh : s1.height = s2.height)
    (hg : s1.gridSize = s2.gridSize) :
    ∀ N : ℕ, (stepN N s1).agents = (stepN N s2).agents := by
  intro N
  induction N generalizing s1 s2 with
  | zero => simpa [stepN] using hag
  | succ n ih =>
    simp only [stepN]
    exact ih s1.update s2.update
      (update_agents_congr s1 s2 hag henv hp hw hh hg)
      henv hp hw hh hg

/-- The C8 witness pair: the same initial state up to the frame counter and
statistics. -/
def csim8b : Simulation :=
  { csim3 with frame := 5, maxDensity := 3, jamCount := 7, averageSpeed := 1 }

/-- Witness for C8: two concrete runs from the same agents, environment and
parameters agree after two frames. -/
theorem C8_determinism_witness :
    csim3.agents = csim8b.agents ∧ csim3.env = csim8b.env ∧
      csim3.params = csim8b.params ∧ csim3.width = csim8b.width ∧
      csim3.height = csim8b.height ∧ csim3.gridSize = csim8b.gridSize ∧
      (stepN 2 csim3).agents = (stepN 2 csim8b).agents :=
  ⟨rfl, rfl, rfl, rfl, rfl, rfl,
    C8_determinism csim3 csim8b rfl rfl rfl rfl rfl rfl 2⟩

/-- The frame sweep preserves the length of the store. -/
theorem processLoop_store_length (env : Environment) (params : Params)
    (grid : ℤ → ℤ → List ℕ) (cols rows : ℤ) (gs : ℝ) :
    ∀ (k : ℕ) (store : List Agent),
      (processLoop env params grid cols rows gs k store).store.length =
        store.length := by
  intro k
  induction k with
  | zero => intro store; rfl
  | succ k ih =>
    intro store
    simp only [processLoop]
    rw [ih, List.length_set]

/-- Store entries at or above the loop counter are untouched by the sweep. -/
theorem processLoop_getD_ge (env : Environment) (params : Params)
    (grid : ℤ → ℤ → List ℕ) (cols rows : ℤ) (gs : ℝ) :
    ∀ (k : ℕ) (store : List Agent) (j : ℕ), k ≤ j →
      (processLoop env params grid cols rows gs k store).store.getD j dfltAgent =
        store.getD j dfltAgent := by
  intro k
  induction k with
  | zero => intro store j _; rfl
  | succ k ih =>
    intro store j hkj
    simp only [processLoop]
    rw [ih _ j (by omega), getD_set_ne _ _ _ _ _ (by omega)]

/-- The `totalSpeed` accumulator of the sweep equals the sum of the
post-update speeds of all processed store entries — including the ones the
frame splices out at the exit. -/
theorem processLoop_totalSpeed (env : Environment) (params : Params)
    (grid : ℤ → ℤ → List ℕ) (cols rows : ℤ) (gs : ℝ) :
    ∀ (k : ℕ) (store : List Agent), k ≤ store.length →
      (processLoop env params grid cols rows gs k store).totalSpeed =
        ((List.range k).map (fun i =>
          ((processLoop env params grid cols rows gs k store).store.getD i
            dfltAgent).velocity.mag)).sum := by
  intro k
  induction k with
  | zero => intro store _; simp [processLoop]
  | succ k ih =>
    intro store hk
    simp only [processLoop]
    rw [List.range_succ, List.map_append, List.sum_append]
    rw [ih _ (by rw [List.length_set]; omega)]
    have hgetk : (processLoop env params grid cols rows gs k
        (store.set k (Agent.update env
          ((store.getD k dfltAgent).applyForce
            (totalForce env params (store.getD k dfltAgent)
              ((getNeighbors grid cols rows gs store k).map
                (fun j => store.getD j dfltAgent))))))).store.getD k dfltAgent =
        Agent.update env ((store.getD k dfltAgent).applyForce
          (totalForce env params (store.getD k dfltAgent)
            ((getNeighbors grid cols rows gs store k).map
              (fun j => store.getD j dfltAgent)))) := by
      rw [processLoop_getD_ge _ _ _ _ _ _ k _ k (le_refl k),
        getD_set_self _ _ _ _ (by omega)]
    simp only [List.map_cons, List.map_nil, List.sum_cons, List.sum_nil]
    rw [hgetk]
    ring

/-- C7 amended: when no agent is removed during the frame, `averageSpeed` is
the arithmetic mean of the post-update speeds of the remaining agents, and it
is `0` whenever no agents remain; in general the numerator also counts the
speeds of the agents spliced out at the exit this frame. -/
theorem C7_amended (s : Simulation) :
    (s.updateData.removed = [] →
      (s.update).averageSpeed =
        (((s.update).agents.map (fun a => a.velocity.mag)).sum /
          ((s.update).agents.length : ℝ))) ∧
    ((s.update).agents = [] → (s.update).averageSpeed = 0) := by
  have havg : (s.update).averageSpeed =
      if 0 < (s.update).agents.length then
        s.updateData.totalSpeed / ((s.update).agents.length : ℝ)
      else 0 := rfl
  constructor
  · intro h
    have hsurv : s.survivors = List.range s.agents.length := by
      unfold Simulation.survivors
      rw [h]
      apply List.filter_eq_self.mpr
      intro a _
      simp
    have hagents : (s.update).agents =
        (List.range s.agents.length).map
          (fun i => s.updateData.store.getD i dfltAgent) := by
      rw [show (s.update).agents =
        s.survivors.map (fun i => s.updateData.store.getD i dfltAgent) from rfl,
        hsurv]
    have hts : s.updateData.totalSpeed =
        ((List.range s.agents.length).map (fun i =>
          (s.updateData.store.getD i dfltAgent).velocity.mag)).sum :=
      processLoop_totalSpeed s.env s.params s.updateGrid s.cols s.rows
        s.gridSize s.agents.length s.agents (le_refl _)
    rw [havg, hagents, List.map_map, List.length_map, List.length_range]
    by_cases hn : 0 < s.agents.length
    · rw [if_pos hn, hts]
      rfl
    · rw [if_neg hn]
      have hn0 : s.agents.length = 0 := by omega
      rw [hn0]
      simp
  · intro h
    rw [havg, h]
    simp

/-- Helper for concrete evaluations: the magnitude of a concrete vector. -/
theorem mag_eval {x y m : ℝ} (hm : 0 ≤ m) (h : x * x + y * y = m ^ 2) :
    Vector.mag ⟨x, y⟩ = m := by
  unfold Vector.mag
  rw [h, Real.sqrt_sq hm]

/-- Helper for concrete evaluations: the distance of two concrete vectors. -/
theorem dist_eval {x1 y1 x2 y2 m : ℝ} (hm : 0 ≤ m)
    (h : (x1 - x2) * (x1 - x2) + (y1 - y2) * (y1 - y2) = m ^ 2) :
    Vector.dist ⟨x1, y1⟩ ⟨x2, y2⟩ = m := by
  unfold Vector.dist
  rw [h, Real.sqrt_sq hm]

/-- Helper for concrete evaluations: a lower bound on a concrete distance. -/
theorem dist_ge {x1 y1 x2 y2 b : ℝ} (hb : 0 ≤ b)
    (h : b ^ 2 ≤ (x1 - x2) * (x1 - x2) + (y1 - y2) * (y1 - y2)) :
    b ≤ Vector.dist ⟨x1, y1⟩ ⟨x2, y2⟩ :=
  sqrt_ge hb h

/-- Helper for concrete evaluations: `normalize` at a concrete nonzero
vector. -/
theorem normalize_eval {x y m : ℝ} (hm : 0 < m) (h : x * x + y * y = m ^ 2) :
    Vector.normalize ⟨x, y⟩ = ⟨x / m, y / m⟩ := by
  unfold Vector.normalize
  rw [mag_eval hm.le h, if_pos (ne_of_gt hm)]
  unfold Vector.div
  rw [if_pos (ne_of_gt hm)]

theorem separation_nil (a : Agent) : a.separation [] = ⟨0, 0⟩ := by
  simp only [Agent.separation, List.foldl_nil]
  rw [if_neg (lt_irrefl 0), if_neg (by rw [Vector.mag_zero]; exact lt_irrefl 0)]

theorem alignment_nil (a : Agent) : a.alignment [] = ⟨0, 0⟩ := by
  simp only [Agent.alignment, List.foldl_nil]
  rw [if_neg (lt_irrefl 0)]

theorem cohesion_nil (a : Agent) : a.cohesion [] = ⟨0, 0⟩ := by
  simp only [Agent.cohesion, List.foldl_nil]
  rw [if_neg (lt_irrefl 0)]

/-- A rectangle whose closest point is at distance zero or at least
`wallPerceptionRadius` contributes nothing to the avoidance accumulator. -/
theorem wallStep_skip (a : Agent) (p : Vector × ℕ) (r : Rect)
    (h : ¬(0 < a.position.dist (Agent.closestPoint a r) ∧
      a.position.dist (Agent.closestPoint a r) < a.wallPerceptionRadius)) :
    Agent.wallStep a p r = p := by
  simp only [Agent.wallStep]
  rw [if_neg h]

/-- When every wall and every restricted zone is out of perception range, the
avoidance force is the zero vector. -/
theorem wallAvoidance_eq_zero (a : Agent) (env : Environment)
    (h : ∀ r ∈ env.walls ++ env.restrictedZones,
      ¬(0 < a.position.dist (Agent.closestPoint a r) ∧
        a.position.dist (Agent.closestPoint a r) < a.wallPerceptionRadius)) :
    a.wallAvoidance env = ⟨0, 0⟩ := by
  simp only [Agent.wallAvoidance]
  have key : ∀ l : List Rect,
      (∀ r ∈ l, ¬(0 < a.position.dist (Agent.closestPoint a r) ∧
        a.position.dist (Agent.closestPoint a r) < a.wallPerceptionRadius)) →
      l.foldl (Agent.wallStep a) ((⟨0, 0⟩ : Vector), (0 : ℕ)) = (⟨0, 0⟩, 0) := by
    intro l
    induction l with
    | nil => intro _; rfl
    | cons hd tl ih =>
      intro hl
      rw [List.foldl_cons, wallStep_skip a _ hd (hl hd (List.mem_cons_self hd tl))]
      exact ih (fun r hr => hl r (List.mem_cons_of_mem hd hr))
  rw [key _ h]
  rw [if_neg (lt_irrefl 0), if_neg (by rw [Vector.mag_zero]; exact lt_irrefl 0)]

/-- Every index found in a bucket of the rebuilt grid satisfies the bucket
characterization. -/
theorem mem_buildGrid {gs : ℝ} {cols rows : ℤ} {agents : List Agent}
    {n : ℕ} {i j : ℤ} {k : ℕ} (h : k ∈ buildGrid gs cols rows agents n i j) :
    gridCond gs cols rows agents n i j k := by
  by_contra hc
  have hcount := count_buildGrid gs cols rows agents n i j k
  rw [if_neg hc] at hcount
  have := List.count_pos_iff.mpr h
  omega

/-- Every index in the scan list of `getNeighbors` comes from a bucket within
offset range of the querying agent's bucket. -/
theorem mem_scanList {grid : ℤ → ℤ → List ℕ} {cols rows : ℤ} {gs : ℝ}
    {store : List Agent} {selfIdx k : ℕ}
    (h : k ∈ scanList grid cols rows gs store selfIdx) :
    ∃ i0 ∈ scanOffsets ⌈(store.getD selfIdx dfltAgent).perceptionRadius / gs⌉,
      ∃ j0 ∈ scanOffsets ⌈(store.getD selfIdx dfltAgent).perceptionRadius / gs⌉,
        k ∈ grid (⌊(store.getD selfIdx dfltAgent).position.x / gs⌋ + i0)
          (⌊(store.getD selfIdx dfltAgent).position.y / gs⌋ + j0) := by
  simp only [scanList, List.mem_flatMap] at h
  obtain ⟨i0, hi0, j0, hj0, hk⟩ := h
  refine ⟨i0, hi0, j0, hj0, ?_⟩
  by_cases hb : 0 ≤ ⌊(store.getD selfIdx dfltAgent).position.x / gs⌋ + i0 ∧
      ⌊(store.getD selfIdx dfltAgent).position.x / gs⌋ + i0 < cols ∧
      0 ≤ ⌊(store.getD selfIdx dfltAgent).position.y / gs⌋ + j0 ∧
      ⌊(store.getD selfIdx dfltAgent).position.y / gs⌋ + j0 < rows
  · rwa [if_pos hb] at hk
  · rw [if_neg hb] at hk
    exact absurd hk (List.not_mem_nil k)

/-- When no scanned index passes the neighbor predicate, `getNeighbors`
returns the empty list. -/
theorem getNeighbors_nil (grid : ℤ → ℤ → List ℕ) (cols rows : ℤ) (gs : ℝ)
    (store : List Agent) (selfIdx : ℕ)
    (h : ∀ k ∈ scanList grid cols rows gs store selfIdx,
      ¬ neighborCond store selfIdx k) :
    getNeighbors grid cols rows gs store selfIdx = [] := by
  unfold getNeighbors
  rw [collect_eq _ _ [] (by norm_num)]
  rw [List.filter_eq_nil_iff.mpr (by intro k hk; simpa using h k hk)]
  simp

/-- Helper for concrete evaluations: an integer floor. -/
theorem floor_eval {x : ℝ} {n : ℤ} (h1 : (n : ℝ) ≤ x) (h2 : x < n + 1) :
    ⌊x⌋ = n := Int.floor_eq_iff.mpr ⟨h1, h2⟩

/-- The ring radius of the reference scan: one bucket in each direction. -/
theorem scanOffsets_one : scanOffsets 1 = [-1, 0, 1] := by
  unfold scanOffsets
  rfl

/-- Concrete agent used to refute C7: mid-corridor at `(475, 300)`, at rest,
out of perception range of every wall and of the other agent. -/
def agB : Agent := ⟨⟨475, 300⟩, ⟨0, 0⟩, 2, 50, 20, 5, 30⟩

/-- Concrete agent used to refute C7: at the exit center `(775, 300)` moving
at `(1, 0)`. -/
def agA : Agent := ⟨⟨775, 300⟩, ⟨1, 0⟩, 2, 50, 20, 5, 30⟩

/-- The value of `agB` after one frame: seeking the exit at full speed. -/
def agB2 : Agent := ⟨⟨477, 300⟩, ⟨2, 0⟩, 2, 50, 20, 5, 30⟩

/-- The value of `agA` after one frame: braked by the goal force and moved a
fifth of a unit towards the corridor. -/
def agA2 : Agent := ⟨⟨3874 / 5, 300⟩, ⟨-1 / 5, 0⟩, 2, 50, 20, 5, 30⟩

/-- Two-agent simulation refuting C7 on the default `800 × 600` canvas. -/
def csim7 : Simulation := ⟨800, 600, envD, [agB, agA], 0, 0, 0, defaultParams, 50, 0⟩

/-- One-agent simulation witnessing the amended C7 (no removals in its first
frame). -/
def csim7b : Simulation := ⟨800, 600, envD, [agB], 0, 0, 0, defaultParams, 50, 0⟩

theorem exitCenter_envD : exitCenter envD = ⟨775, 300⟩ := by
  simp only [exitCenter, envD, mkEnvironment]
  ext <;> norm_num

theorem wallAvoid_agB : agB.wallAvoidance envD = ⟨0, 0⟩ := by
  apply wallAvoidance_eq_zero
  intro r hr
  simp only [envD, mkEnvironment, List.mem_append, List.mem_cons,
    List.not_mem_nil, or_false] at hr
  rcases hr with (h | h | h | h | h) | h <;> subst h <;> rintro ⟨-, hlt⟩
  · rw [show Agent.closestPoint agB ⟨0, 0, 800, 20⟩ = ⟨475, 20⟩ by
      simp only [Agent.closestPoint, agB]; ext <;> norm_num [min_def, max_def]] at hlt
    have h30 : (30 : ℝ) ≤ Vector.dist ⟨475, 300⟩ ⟨475, 20⟩ :=
      dist_ge (by norm_num) (by norm_num)
    exact absurd hlt (not_lt.mpr h30)
  · rw [show Agent.closestPoint agB ⟨0, 600 - 20, 800, 20⟩ = ⟨475, 580⟩ by
      simp only [Agent.closestPoint, agB]; ext <;> norm_num [min_def, max_def]] at hlt
    have h30 : (30 : ℝ) ≤ Vector.dist ⟨475, 300⟩ ⟨475, 580⟩ :=
      dist_ge (by norm_num) (by norm_num)
    exact absurd hlt (not_lt.mpr h30)
  · rw [show Agent.closestPoint agB ⟨0, 0, 20, 600⟩ = ⟨20, 300⟩ by
      simp only [Agent.closestPoint, agB]; ext <;> norm_num [min_def, max_def]] at hlt
    have h30 : (30 : ℝ) ≤ Vector.dist ⟨475, 300⟩ ⟨20, 300⟩ :=
      dist_ge (by norm_num) (by norm_num)
    exact absurd hlt (not_lt.mpr h30)
  · rw [show Agent.closestPoint agB ⟨300, 100, 20, 200⟩ = ⟨320, 300⟩ by
      simp only [Agent.closestPoint, agB]; ext <;> norm_num [min_def, max_def]] at hlt
    have h30 : (30 : ℝ) ≤ Vector.dist ⟨475, 300⟩ ⟨320, 300⟩ :=
      dist_ge (by norm_num) (by norm_num)
    exact absurd hlt (not_lt.mpr h30)
  · rw [show Agent.closestPoint agB ⟨300, 400, 20, 200⟩ = ⟨320, 400⟩ by
      simp only [Agent.closestPoint, agB]; ext <;> norm_num [min_def, max_def]] at hlt
    have h30 : (30 : ℝ) ≤ Vector.dist ⟨475, 300⟩ ⟨320, 400⟩ :=
      dist_ge (by norm_num) (by norm_num)
    exact absurd hlt (not_lt.mpr h30)
  · rw [show Agent.closestPoint agB ⟨100, 100, 100, 100⟩ = ⟨200, 200⟩ by
      simp only [Agent.closestPoint, agB]; ext <;> norm_num [min_def, max_def]] at hlt
    have h30 : (30 : ℝ) ≤ Vector.dist ⟨475, 300⟩ ⟨200, 200⟩ :=
      dist_ge (by norm_num) (by norm_num)
    exact absurd hlt (not_lt.mpr h30)

theorem wallAvoid_agA : agA.wallAvoidance envD = ⟨0, 0⟩ := by
  apply wallAvoidance_eq_zero
  intro r hr
  simp only [envD, mkEnvironment, List.mem_append, List.mem_cons,
    List.not_mem_nil, or_false] at hr
  rcases hr with (h | h | h | h | h) | h <;> subst h <;> rintro ⟨-, hlt⟩
  · rw [show Agent.closestPoint agA ⟨0, 0, 800, 20⟩ = ⟨775, 20⟩ by
      simp only [Agent.closestPoint, agA]; ext <;> norm_num [min_def, max_def]] at hlt
    have h30 : (30 : ℝ) ≤ Vector.dist ⟨775, 300⟩ ⟨775, 20⟩ :=
      dist_ge (by norm_num) (by norm_num)
    exact absurd hlt (not_lt.mpr h30)
  · rw [show Agent.closestPoint agA ⟨0, 600 - 20, 800, 20⟩ = ⟨775, 580⟩ by
      simp only [Agent.closestPoint, agA]; ext <;> norm_num [min_def, max_def]] at hlt
    have h30 : (30 : ℝ) ≤ Vector.dist ⟨775, 300⟩ ⟨775, 580⟩ :=
      dist_ge (by norm_num) (by norm_num)
    exact absurd hlt (not_lt.mpr h30)
  · rw [show Agent.closestPoint agA ⟨0, 0, 20, 600⟩ = ⟨20, 300⟩ by
      simp only [Agent.closestPoint, agA]; ext <;> norm_num [min_def, max_def]] at hlt
    have h30 : (30 : ℝ) ≤ Vector.dist ⟨775, 300⟩ ⟨20, 300⟩ :=
      dist_ge (by norm_num) (by norm_num)
    exact absurd hlt (not_lt.mpr h30)
  · rw [show Agent.closestPoint agA ⟨300, 100, 20, 200⟩ = ⟨320, 300⟩ by
      simp only [Agent.closestPoint, agA]; ext <;> norm_num [min_def, max_def]] at hlt
    have h30 : (30 : ℝ) ≤ Vector.dist ⟨775, 300⟩ ⟨320, 300⟩ :=
      dist_ge (by norm_num) (by norm_num)
    exact absurd hlt (not_lt.mpr h30)
  · rw [show Agent.closestPoint agA ⟨300, 400, 20, 200⟩ = ⟨320, 400⟩ by
      simp only [Agent.closestPoint, agA]; ext <;> norm_num [min_def, max_def]] at hlt
    have h30 : (30 : ℝ) ≤ Vector.dist ⟨775, 300⟩ ⟨320, 400⟩ :=
      dist_ge (by norm_num) (by norm_num)
    exact absurd hlt (not_lt.mpr h30)
  · rw [show Agent.closestPoint agA ⟨100, 100, 100, 100⟩ = ⟨200, 200⟩ by
      simp only [Agent.closestPoint, agA]; ext <;> norm_num [min_def, max_def]] at hlt
    have h30 : (30 : ℝ) ≤ Vector.dist ⟨775, 300⟩ ⟨200, 200⟩ :=
      dist_ge (by norm_num) (by norm_num)
    exact absurd hlt (not_lt.mpr h30)

theorem valid_B2 : envD.isPositionValid ⟨477, 300⟩ := by
  refine ⟨?_, ?_, ?_⟩
  · intro r hr
    simp only [envD, mkEnvironment, List.mem_cons, List.not_mem_nil, or_false] at hr
    rcases hr with h | h | h | h | h <;> subst h <;>
      (unfold rectIntersect agentRectAt; norm_num)
  · intro r hr
    simp only [envD, mkEnvironment, List.mem_cons, List.not_mem_nil, or_false] at hr
    subst hr
    unfold rectIntersect agentRectAt
    norm_num
  · norm_num [envD, mkEnvironment]

theorem valid_A2 : envD.isPositionValid ⟨3874 / 5, 300⟩ := by
  refine ⟨?_, ?_, ?_⟩
  · intro r hr
    simp only [envD, mkEnvironment, List.mem_cons, List.not_mem_nil, or_false] at hr
    rcases hr with h | h | h | h | h <;> subst h <;>
      (unfold rectIntersect agentRectAt; norm_num)
  · intro r hr
    simp only [envD, mkEnvironment, List.mem_cons, List.not_mem_nil, or_false] at hr
    subst hr
    unfold rectIntersect agentRectAt
    norm_num
  · norm_num [envD, mkEnvironment]

theorem seekGoal_agB : agB.seekGoal (exitCenter envD) = ⟨2, 0⟩ := by
  rw [exitCenter_envD]
  unfold Agent.seekGoal
  rw [show (⟨775, 300⟩ : Vector).sub agB.position = ⟨300, 0⟩ by
    simp only [Vector.sub, agB]; ext <;> norm_num]
  rw [normalize_eval (by norm_num : (0 : ℝ) < 300) (by norm_num)]
  simp only [Vector.mult, Vector.sub, agB]
  ext <;> norm_num

theorem seekGoal_agA : agA.seekGoal (exitCenter envD) = ⟨-1, 0⟩ := by
  rw [exitCenter_envD]
  unfold Agent.seekGoal
  rw [show (⟨775, 300⟩ : Vector).sub agA.position = ⟨0, 0⟩ by
    simp only [Vector.sub, agA]; ext <;> norm_num]
  rw [Vector.normalize_zero]
  simp only [Vector.mult, Vector.sub, agA]
  ext <;> norm_num

theorem forceB : totalForce envD defaultParams agB [] = ⟨12 / 5, 0⟩ := by
  unfold totalForce
  rw [separation_nil, alignment_nil, cohesion_nil, seekGoal_agB, wallAvoid_agB]
  simp only [Vector.mult, Vector.add, defaultParams]
  ext <;> norm_num

theorem forceA : totalForce envD defaultParams agA [] = ⟨-6 / 5, 0⟩ := by
  unfold totalForce
  rw [separation_nil, alignment_nil, cohesion_nil, seekGoal_agA, wallAvoid_agA]
  simp only [Vector.mult, Vector.add, defaultParams]
  ext <;> norm_num

theorem stepB :
    Agent.update envD (agB.applyForce (totalForce envD defaultParams agB [])) =
      agB2 := by
  rw [forceB]
  rw [show agB.applyForce ⟨12 / 5, 0⟩ =
      (⟨⟨475, 300⟩, ⟨12 / 5, 0⟩, 2, 50, 20, 5, 30⟩ : Agent) by
    simp only [Agent.applyForce, agB, Vector.add]
    norm_num]
  simp only [Agent.update]
  rw [show Vector.limit ⟨12 / 5, 0⟩ 2 = ⟨2, 0⟩ by
    unfold Vector.limit
    rw [mag_eval (by norm_num : (0 : ℝ) ≤ 12 / 5) (by norm_num),
      if_pos (by norm_num : (12 / 5 : ℝ) > 2),
      normalize_eval (by norm_num : (0 : ℝ) < 12 / 5) (by norm_num)]
    simp only [Vector.mult]
    ext <;> norm_num]
  rw [show Vector.add ⟨475, 300⟩ ⟨2, 0⟩ = ⟨477, 300⟩ by
    simp only [Vector.add]; ext <;> norm_num]
  rw [if_pos valid_B2]
  rfl

theorem stepA :
    Agent.update envD (agA.applyForce (totalForce envD defaultParams agA [])) =
      agA2 := by
  rw [forceA]
  rw [show agA.applyForce ⟨-6 / 5, 0⟩ =
      (⟨⟨775, 300⟩, ⟨-1 / 5, 0⟩, 2, 50, 20, 5, 30⟩ : Agent) by
    simp only [Agent.applyForce, agA, Vector.add]
    norm_num]
  simp only [Agent.update]
  rw [show Vector.limit ⟨-1 / 5, 0⟩ 2 = ⟨-1 / 5, 0⟩ by
    unfold Vector.limit
    rw [mag_eval (by norm_num : (0 : ℝ) ≤ 1 / 5) (by norm_num)]
    rw [if_neg (by norm_num : ¬((1 / 5 : ℝ) > 2))]]
  rw [show Vector.add ⟨775, 300⟩ ⟨-1 / 5, 0⟩ = ⟨3874 / 5, 300⟩ by
    simp only [Vector.add]; ext <;> norm_num]
  rw [if_pos valid_A2]
  rfl

theorem mag_agB2 : agB2.velocity.mag = 2 := by
  rw [show agB2.velocity = ⟨2, 0⟩ from rfl]
  exact mag_eval (by norm_num) (by norm_num)

theorem mag_agA2 : agA2.velocity.mag = 1 / 5 := by
  rw [show agA2.velocity = ⟨-1 / 5, 0⟩ from rfl]
  exact mag_eval (by norm_num) (by norm_num)

theorem atExit_agA2 : envD.isAtExit agA2.position := by
  unfold Environment.isAtExit
  rw [exitCenter_envD, show agA2.position = ⟨3874 / 5, 300⟩ from rfl]
  rw [dist_eval (by norm_num : (0 : ℝ) ≤ 1 / 5) (by norm_num)]
  norm_num

theorem notAtExit_agB2 : ¬ envD.isAtExit agB2.position := by
  unfold Environment.isAtExit
  rw [exitCenter_envD, show agB2.position = ⟨477, 300⟩ from rfl]
  have h10 : (10 : ℝ) ≤ Vector.dist ⟨477, 300⟩ ⟨775, 300⟩ :=
    dist_ge (by norm_num) (by norm_num)
  exact not_lt.mpr h10

/-- In a one-agent simulation the only scanned index is the querying agent
itself, so the neighbor list is empty. -/
theorem nbB1 (cols rows : ℤ) :
    getNeighbors (buildGrid 50 cols rows [agB] 1) cols rows 50 [agB] 0 = [] := by
  apply getNeighbors_nil
  intro k hk
  obtain ⟨i0, hi0, j0, hj0, hk2⟩ := mem_scanList hk
  have hg := mem_buildGrid hk2
  rintro ⟨hne, -⟩
  have hklt : k < 1 := hg.1
  exact hne (by omega)

/-- The agent at the exit center scans buckets around column `15`; the other
agent sits in column `9`, outside the ring, so its neighbor list is empty. -/
theorem nbA (cols rows : ℤ) :
    getNeighbors (buildGrid 50 cols rows [agB, agA] 2) cols rows 50
      [agB, agA] 1 = [] := by
  apply getNeighbors_nil
  intro k hk
  obtain ⟨i0, hi0, j0, hj0, hk2⟩ := mem_scanList hk
  have hg := mem_buildGrid hk2
  rintro ⟨hne, -⟩
  have hklt : k < 2 := hg.1
  have hk0 : k = 0 := by omega
  subst hk0
  have hcol := hg.2.1
  simp only [List.getD_cons_succ, List.getD_cons_zero, agA, agB] at hcol hi0
  rw [show ⌊(775 : ℝ) / 50⌋ = (15 : ℤ) from floor_eval (by norm_num) (by norm_num),
    show ⌊(475 : ℝ) / 50⌋ = (9 : ℤ) from floor_eval (by norm_num) (by norm_num)] at hcol
  rw [show ⌈(50 : ℝ) / 50⌉ = (1 : ℤ) by
      rw [show (50 : ℝ) / 50 = 1 by norm_num]; exact Int.ceil_one,
    scanOffsets_one] at hi0
  simp only [List.mem_cons, List.not_mem_nil, or_false] at hi0
  rcases hi0 with h | h | h <;> omega

/-- The corridor agent scans buckets around column `9`; the agent at the exit
center sits in column `15`, outside the ring, so — whatever value the already
processed index `1` now holds — its neighbor list is empty. -/
theorem nbB (cols rows : ℤ) (X : Agent) :
    getNeighbors (buildGrid 50 cols rows [agB, agA] 2) cols rows 50
      [agB, X] 0 = [] := by
  apply getNeighbors_nil
  intro k hk
  obtain ⟨i0, hi0, j0, hj0, hk2⟩ := mem_scanList hk
  have hg := mem_buildGrid hk2
  rintro ⟨hne, -⟩
  have hklt : k < 2 := hg.1
  have hk1 : k = 1 := by omega
  subst hk1
  have hcol := hg.2.1
  simp only [List.getD_cons_succ, List.getD_cons_zero, agA, agB] at hcol hi0
  rw [show ⌊(475 : ℝ) / 50⌋ = (9 : ℤ) from floor_eval (by norm_num) (by norm_num),
    show ⌊(775 : ℝ) / 50⌋ = (15 : ℤ) from floor_eval (by norm_num) (by norm_num)] at hcol
  rw [show ⌈(50 : ℝ) / 50⌉ = (1 : ℤ) by
      rw [show (50 : ℝ) / 50 = 1 by norm_num]; exact Int.ceil_one,
    scanOffsets_one] at hi0
  simp only [List.mem_cons, List.not_mem_nil, or_false] at hi0
  rcases hi0 with h | h | h <;> omega

/-- Base case of the sweep. -/
theorem processLoop_zero (env : Environment) (params : Params)
    (grid : ℤ → ℤ → List ℕ) (cols rows : ℤ) (gs : ℝ) (store : List Agent) :
    processLoop env params grid cols rows gs 0 store = ⟨store, [], 0, 0⟩ := rfl

/-- One unfolding of the sweep, phrased for concrete evaluation: given the
processed value `a2` of the head index and the already evaluated result of
the remaining loop, the sweep result is assembled fieldwise. -/
theorem processLoop_eval (env : Environment) (params : Params)
    (grid : ℤ → ℤ → List ℕ) (cols rows : ℤ) (gs : ℝ) (i k : ℕ)
    (hk : k = i + 1) (store : List Agent) (a2 : Agent)
    (ha2 : a2 = Agent.update env ((store.getD i dfltAgent).applyForce
      (totalForce env params (store.getD i dfltAgent)
        ((getNeighbors grid cols rows gs store i).map
          (fun j => store.getD j dfltAgent)))))
    (res : FrameResult)
    (hres : processLoop env params grid cols rows gs i (store.set i a2) = res) :
    processLoop env params grid cols rows gs k store =
      ⟨res.store,
        (if env.isAtExit a2.position then [i] else []) ++ res.removed,
        a2.velocity.mag + res.totalSpeed,
        (if a2.velocity.mag < 0.5 then 1 else 0) + res.jamThisFrame⟩ := by
  subst hk
  subst ha2
  rw [← hres]
  rfl

/-- Full evaluation of the frame sweep of the one-agent simulation: the agent
accelerates to full speed toward the exit and is not removed. -/
theorem processLoop_csim7b (cols rows : ℤ) :
    processLoop envD defaultParams (buildGrid 50 cols rows [agB] 1) cols rows
      50 1 [agB] = ⟨[agB2], [], 2, 0⟩ := by
  have ha2 : agB2 = Agent.update envD (([agB].getD 0 dfltAgent).applyForce
      (totalForce envD defaultParams ([agB].getD 0 dfltAgent)
        ((getNeighbors (buildGrid 50 cols rows [agB] 1) cols rows 50 [agB] 0).map
          (fun j => [agB].getD j dfltAgent)))) := by
    rw [nbB1 cols rows]
    simp only [List.map_nil, List.getD_cons_zero]
    exact stepB.symm
  have hres : processLoop envD defaultParams (buildGrid 50 cols rows [agB] 1)
      cols rows 50 0 ([agB].set 0 agB2) = ⟨[agB2], [], 0, 0⟩ := by
    simp only [List.set_cons_zero]
    rfl
  rw [processLoop_eval envD defaultParams (buildGrid 50 cols rows [agB] 1)
    cols rows 50 0 1 rfl [agB] agB2 ha2 ⟨[agB2], [], 0, 0⟩ hres]
  rw [if_neg notAtExit_agB2, mag_agB2, if_neg (by norm_num : ¬((2 : ℝ) < 0.5))]
  simp

/-- Full evaluation of the frame sweep of the two-agent simulation: the agent
at the exit center is removed with final speed `1/5`; the corridor agent
stays with final speed `2`; `totalSpeed` counts both. -/
theorem processLoop_csim7 (cols rows : ℤ) :
    processLoop envD defaultParams (buildGrid 50 cols rows [agB, agA] 2)
      cols rows 50 2 [agB, agA] = ⟨[agB2, agA2], [1], 11 / 5, 1⟩ := by
  have ha2B : agB2 = Agent.update envD (([agB, agA2].getD 0 dfltAgent).applyForce
      (totalForce envD defaultParams ([agB, agA2].getD 0 dfltAgent)
        ((getNeighbors (buildGrid 50 cols rows [agB, agA] 2) cols rows 50
          [agB, agA2] 0).map (fun j => [agB, agA2].getD j dfltAgent)))) := by
    rw [nbB cols rows agA2]
    simp only [List.map_nil, List.getD_cons_zero]
    exact stepB.symm
  have hres0 : processLoop envD defaultParams
      (buildGrid 50 cols rows [agB, agA] 2) cols rows 50 0
      ([agB, agA2].set 0 agB2) = ⟨[agB2, agA2], [], 0, 0⟩ := by
    simp only [List.set_cons_zero]
    rfl
  have hres1 : processLoop envD defaultParams
      (buildGrid 50 cols rows [agB, agA] 2) cols rows 50 1 [agB, agA2] =
      ⟨[agB2, agA2], [], 2, 0⟩ := by
    rw [processLoop_eval envD defaultParams (buildGrid 50 cols rows [agB, agA] 2)
      cols rows 50 0 1 rfl [agB, agA2] agB2 ha2B ⟨[agB2, agA2], [], 0, 0⟩ hres0]
    rw [if_neg notAtExit_agB2, mag_agB2, if_neg (by norm_num : ¬((2 : ℝ) < 0.5))]
    simp
  have ha2A : agA2 = Agent.update envD (([agB, agA].getD 1 dfltAgent).applyForce
      (totalForce envD defaultParams ([agB, agA].getD 1 dfltAgent)
        ((getNeighbors (buildGrid 50 cols rows [agB, agA] 2) cols rows 50
          [agB, agA] 1).map (fun j => [agB, agA].getD j dfltAgent)))) := by
    rw [nbA cols rows]
    simp only [List.map_nil, List.getD_cons_succ, List.getD_cons_zero]
    exact stepA.symm
  have hsetA : ([agB, agA].set 1 agA2) = [agB, agA2] := by
    simp only [List.set_cons_succ, List.set_cons_zero]
  rw [processLoop_eval envD defaultParams (buildGrid 50 cols rows [agB, agA] 2)
    cols rows 50 1 2 rfl [agB, agA] agA2 ha2A ⟨[agB2, agA2], [], 2, 0⟩
    (by rw [hsetA]; exact hres1)]
  rw [if_pos atExit_agA2, mag_agA2, if_pos (by norm_num : (1 / 5 : ℝ) < 0.5)]
  norm_num

/-- Counterexample to C7 as stated: in the frame in which the agent at the
exit center is removed with final speed `1/5` while the other agent remains
with speed `2`, the observable `averageSpeed` is `11/5` — the removed agent's
speed is counted in the numerator — whereas the mean of the post-update
speeds of the remaining agents is `2`. -/
theorem C7_counterexample :
    (Simulation.update csim7).agents ≠ [] ∧
      (Simulation.update csim7).averageSpeed ≠
        (((Simulation.update csim7).agents.map (fun a => a.velocity.mag)).sum /
          ((Simulation.update csim7).agents.length : ℝ)) := by
  have hdata : csim7.updateData = ⟨[agB2, agA2], [1], 11 / 5, 1⟩ := by
    rw [show csim7.updateData =
      processLoop envD defaultParams
        (buildGrid 50 csim7.cols csim7.rows [agB, agA] 2) csim7.cols csim7.rows
        50 2 [agB, agA] from rfl]
    exact processLoop_csim7 csim7.cols csim7.rows
  have hsurv : csim7.survivors = [0] := by
    simp only [Simulation.survivors, hdata, show csim7.agents.length = 2 from rfl]
    rfl
  have hagents : (Simulation.update csim7).agents = [agB2] := by
    rw [show (Simulation.update csim7).agents =
      csim7.survivors.map (fun i => csim7.updateData.store.getD i dfltAgent)
      from rfl]
    rw [hsurv, hdata]
    rfl
  have havg : (Simulation.update csim7).averageSpeed = 11 / 5 := by
    rw [show (Simulation.update csim7).averageSpeed =
      (if 0 < (Simulation.update csim7).agents.length then
        csim7.updateData.totalSpeed / ((Simulation.update csim7).agents.length : ℝ)
      else 0) from rfl]
    rw [hagents, hdata]
    norm_num
  constructor
  · rw [hagents]
    simp
  · rw [havg, hagents]
    simp only [List.map_cons, List.map_nil, List.sum_cons, List.sum_nil,
      List.length_cons, List.length_nil, mag_agB2]
    norm_num

/-- Witness for the amended C7 at the one-agent simulation, whose first frame
removes no agent. -/
theorem C7_amended_witness :
    csim7b.updateData.removed = [] ∧
      (csim7b.update).averageSpeed =
        (((csim7b.update).agents.map (fun a => a.velocity.mag)).sum /
          ((csim7b.update).agents.length : ℝ)) := by
  have hrem : csim7b.updateData.removed = [] := by
    rw [show csim7b.updateData =
      processLoop envD defaultParams
        (buildGrid 50 csim7b.cols csim7b.rows [agB] 1) csim7b.cols csim7b.rows
        50 1 [agB] from rfl,
      processLoop_csim7b csim7b.cols csim7b.rows]
  exact ⟨hrem, (C7_amended csim7b).1 hrem⟩

end PedSim
